import Mathlib

/-!
Verification of the Mines wagering game engine (`app.py`).

The four balance- and round-touching endpoints — `update_balance`,
`start_mines_game` (`/api/mines/start`), `reveal_tile` (`/api/mines/reveal`)
and `cashout` (`/api/mines/cashout`) — are embedded as pure functions over a
`ServerState` holding the caller's ledger balance (`db['users'][uid]['balance']`)
and the session-stored round (`session['game_state']`).

Python integers are modelled as `ℤ`.  The multiplier, a Python float in the
source, is modelled as an exact rational `ℚ`; Python `int()` applied to a
nonnegative value is truncation toward zero, modelled by `py_int`.
The call `random.sample(range(25), mines_count)` is external randomness: each
run of `start_mines_game` takes the drawn list as the `sample` argument, and
`SampleSpec` records the documented contract of `random.sample` (distinct
members of the population).
-/

/-- Python `int()` applied to an exact rational value: truncation toward zero
(`Int.tdiv` of the numerator by the positive denominator). -/
def py_int (q : ℚ) : ℤ := q.num.tdiv q.den

/-- The per-user round stored in `session['game_state']` by `app.py`. -/
structure GameState where
  mines_positions : List ℤ
  bet_amount : ℤ
  mines_count : ℤ
  revealed_positions : List ℤ
  active : Bool
  won : Bool
  multiplier : ℚ
deriving DecidableEq, Repr

/-- The error payloads the endpoints return with HTTP status 400. -/
inductive ApiError where
  | invalid_mines_count
  | invalid_bet_amount
  | insufficient_balance
  | invalid_position
  | no_active_game
  | tile_already_revealed
deriving DecidableEq, Repr

/-- The mutable state one user's request touches: the ledger balance
(`db['users'][uid]['balance']`) and the stored round (`session['game_state']`,
`none` when the session holds no round). -/
structure ServerState where
  balance : ℤ
  game_state : Option GameState
deriving DecidableEq, Repr

/-- Documented contract of `random.sample(range(n), k)`: `k` distinct values
drawn from `[0, n)`. -/
def SampleSpec (n k : ℤ) (sample : List ℤ) : Prop :=
  (sample.length : ℤ) = k ∧ sample.Nodup ∧ ∀ x ∈ sample, 0 ≤ x ∧ x < n

/-- Endpoint `POST /api/update_balance`: adds `amount` to the caller's balance and
returns `success=True` together with the new balance.  The stored round is
neither read nor written. -/
def update_balance (amount : ℤ) (st : ServerState) : ServerState × (Bool × ℤ) :=
  let st' : ServerState := { st with balance := st.balance + amount }
  (st', (true, st'.balance))

/-- Endpoint `POST /api/mines/start`: validates `mines_count`, `bet_amount` and the
balance (in that order), then deducts the stake, draws the mines (`sample`
stands for the value of `random.sample(range(25), mines_count)`) and stores a
fresh active round.  The previously stored round is never consulted.
On success the reported payload carries the new balance. -/
def start_mines_game (sample : List ℤ) (bet_amount mines_count : ℤ)
    (st : ServerState) : ServerState × Except ApiError ℤ :=
  if mines_count < 1 ∨ 24 < mines_count then (st, .error .invalid_mines_count)
  else if bet_amount ≤ 0 then (st, .error .invalid_bet_amount)
  else if st.balance < bet_amount then (st, .error .insufficient_balance)
  else
    let balance' := st.balance - bet_amount
    let gs : GameState :=
      { mines_positions := sample
        bet_amount := bet_amount
        mines_count := mines_count
        revealed_positions := []
        active := true
        won := false
        multiplier := 1 }
    ({ balance := balance', game_state := some gs }, .ok balance')

/-- Success payloads of `POST /api/mines/reveal`. -/
inductive RevealPayload where
  | mine_hit (mines_positions : List ℤ)
  | game_won (multiplier : ℚ) (winnings : ℤ) (balance : ℤ) (mines_positions : List ℤ)
  | safe_reveal (revealed_positions : List ℤ) (multiplier : ℚ) (potential_win : ℤ)
deriving DecidableEq, Repr

/-- Endpoint `POST /api/mines/reveal`: checks the position bounds, the presence of an
active round and that the tile is unrevealed; a mine ends the round
(`active=False`, `won=False`, no balance change); a safe tile is appended and
the multiplier recomputed as `1 + (revealed_count / safe_tiles) * mines_count`;
when all safe tiles are revealed the round ends won and
`int(bet_amount * multiplier)` is credited. -/
def reveal_tile (position : ℤ) (st : ServerState) :
    ServerState × Except ApiError RevealPayload :=
  if position < 0 ∨ 25 ≤ position then (st, .error .invalid_position)
  else
    match st.game_state with
    | none => (st, .error .no_active_game)
    | some gs =>
      if gs.active = false then (st, .error .no_active_game)
      else if position ∈ gs.revealed_positions then (st, .error .tile_already_revealed)
      else if position ∈ gs.mines_positions then
        let gs' := { gs with active := false, won := false }
        ({ st with game_state := some gs' }, .ok (.mine_hit gs'.mines_positions))
      else
        let revealed' := gs.revealed_positions ++ [position]
        let safe_tiles : ℤ := 25 - gs.mines_count
        let revealed_count : ℤ := revealed'.length
        let multiplier : ℚ :=
          1 + ((revealed_count : ℚ) / (safe_tiles : ℚ)) * (gs.mines_count : ℚ)
        if revealed_count = safe_tiles then
          let winnings := py_int ((gs.bet_amount : ℚ) * multiplier)
          let balance' := st.balance + winnings
          let gs' := { gs with revealed_positions := revealed', multiplier := multiplier,
                               active := false, won := true }
          ({ balance := balance', game_state := some gs' },
           .ok (.game_won multiplier winnings balance' gs'.mines_positions))
        else
          let gs' := { gs with revealed_positions := revealed', multiplier := multiplier }
          ({ st with game_state := some gs' },
           .ok (.safe_reveal revealed' multiplier
                 (py_int ((gs.bet_amount : ℚ) * multiplier))))

/-- Endpoint `POST /api/mines/cashout`: requires an active round; credits
`int(bet_amount * multiplier)` using the stored multiplier, marks the round
`active=False, won=True`, and reports `(winnings, new balance)`. -/
def cashout (st : ServerState) : ServerState × Except ApiError (ℤ × ℤ) :=
  match st.game_state with
  | none => (st, .error .no_active_game)
  | some gs =>
    if gs.active = false then (st, .error .no_active_game)
    else
      let winnings := py_int ((gs.bet_amount : ℚ) * gs.multiplier)
      let balance' := st.balance + winnings
      let gs' := { gs with active := false, won := true }
      ({ balance := balance', game_state := some gs' }, .ok (winnings, balance'))

deriving instance DecidableEq for Except

/-- Python `int()` of an integer-valued rational is that integer. -/
theorem py_int_intCast (n : ℤ) : py_int ((n : ℚ)) = n := by
  simp [py_int, Int.tdiv_one]

/-- Successful `start`: with `mines_count` in range, a positive bet covered by
the balance, the stake is deducted and a fresh active round is stored. -/
theorem start_mines_game_success (sample : List ℤ) (bet mc : ℤ) (st : ServerState)
    (h1 : 1 ≤ mc) (h2 : mc ≤ 24) (h3 : 0 < bet) (h4 : bet ≤ st.balance) :
    start_mines_game sample bet mc st =
      ({ balance := st.balance - bet,
         game_state := some
           { mines_positions := sample, bet_amount := bet, mines_count := mc,
             revealed_positions := [], active := true, won := false,
             multiplier := 1 } }, .ok (st.balance - bet)) := by
  have hmc : ¬(mc < 1 ∨ 24 < mc) := by omega
  have hbet : ¬(bet ≤ 0) := by omega
  have hbal : ¬(st.balance < bet) := by omega
  simp [start_mines_game, hmc, hbet, hbal]

/-- C2: for every logged-in user and integer amount, `update_balance`
unconditionally adds the amount to the ledger balance and reports success,
independently of the stored round; in particular the balance can be driven to
any target value (arbitrarily large or negative) by a single request. -/
theorem update_balance_unconditional (amount : ℤ) (st : ServerState) :
    update_balance amount st =
      ({ balance := st.balance + amount, game_state := st.game_state },
       (true, st.balance + amount)) ∧
    ∀ target : ℤ, ∃ a : ℤ, ((update_balance a st).1).balance = target := by
  refine ⟨rfl, fun target => ⟨target - st.balance, ?_⟩⟩
  simp [update_balance]

/-- C1 (counterexample): with an Active round stored, a `start` request with
valid parameters is not rejected: it succeeds, deducts the new stake
(100 → 80) and replaces the stored round with a different fresh one. -/
theorem start_despite_active_round_cx :
    (({ mines_positions := [0], bet_amount := 10, mines_count := 1,
        revealed_positions := [], active := true, won := false,
        multiplier := 1 } : GameState)).active = true ∧
    start_mines_game [1] 20 2
        { balance := 100,
          game_state := some
            { mines_positions := [0], bet_amount := 10, mines_count := 1,
              revealed_positions := [], active := true, won := false,
              multiplier := 1 } } =
      ({ balance := 80,
         game_state := some
           { mines_positions := [1], bet_amount := 20, mines_count := 2,
             revealed_positions := [], active := true, won := false,
             multiplier := 1 } }, .ok 80) ∧
    ({ mines_positions := [1], bet_amount := 20, mines_count := 2,
       revealed_positions := [], active := true, won := false,
       multiplier := 1 } : GameState) ≠
      { mines_positions := [0], bet_amount := 10, mines_count := 1,
        revealed_positions := [], active := true, won := false,
        multiplier := 1 } := by
  refine ⟨rfl, by decide, by decide⟩

/-- C1 (amended): `start_mines_game` never consults the stored round.  For
every server state — in particular one holding an Active round — a `start`
with valid `mines_count`, positive bet and sufficient balance succeeds,
deducts the stake and overwrites the stored round with a fresh one. -/
theorem start_ignores_stored_round (sample : List ℤ) (bet mc : ℤ)
    (st : ServerState) (h1 : 1 ≤ mc) (h2 : mc ≤ 24) (h3 : 0 < bet)
    (h4 : bet ≤ st.balance) :
    start_mines_game sample bet mc st =
      ({ balance := st.balance - bet,
         game_state := some
           { mines_positions := sample, bet_amount := bet, mines_count := mc,
             revealed_positions := [], active := true, won := false,
             multiplier := 1 } }, .ok (st.balance - bet)) :=
  start_mines_game_success sample bet mc st h1 h2 h3 h4

/-- C1 (witness): the amended claim applied with an Active round stored. -/
theorem start_ignores_stored_round_witness :
    start_mines_game [2] 5 1
        { balance := 50,
          game_state := some
            { mines_positions := [0], bet_amount := 10, mines_count := 1,
              revealed_positions := [], active := true, won := false,
              multiplier := 1 } } =
      ({ balance := 50 - 5,
         game_state := some
           { mines_positions := [2], bet_amount := 5, mines_count := 1,
             revealed_positions := [], active := true, won := false,
             multiplier := 1 } }, .ok (50 - 5)) :=
  start_ignores_stored_round [2] 5 1 _ (by decide) (by decide) (by decide)
    (by decide)

/-- C5: for every `mines_count` in `[1, 24]` and positive bet covered by the
balance, `start` succeeds, stores a round whose mines are the drawn sample —
`mines_count` distinct positions in `[0, 25)` by the `random.sample`
contract — with no revealed positions, multiplier 1, Active status, and
deducts exactly the bet from the balance. -/
theorem start_valid_produces_fresh_round (sample : List ℤ) (bet mc : ℤ)
    (st : ServerState) (h1 : 1 ≤ mc) (h2 : mc ≤ 24) (h3 : 0 < bet)
    (h4 : bet ≤ st.balance) (h5 : SampleSpec 25 mc sample) :
    start_mines_game sample bet mc st =
      ({ balance := st.balance - bet,
         game_state := some
           { mines_positions := sample, bet_amount := bet, mines_count := mc,
             revealed_positions := [], active := true, won := false,
             multiplier := 1 } }, .ok (st.balance - bet)) ∧
    (sample.length : ℤ) = mc ∧ sample.Nodup ∧ ∀ x ∈ sample, 0 ≤ x ∧ x < 25 :=
  ⟨start_mines_game_success sample bet mc st h1 h2 h3 h4, h5.1, h5.2.1, h5.2.2⟩

/-- C5 (witness): a concrete valid start with three mines. -/
theorem start_valid_produces_fresh_round_witness :
    start_mines_game [4, 9, 17] 10 3 { balance := 100, game_state := none } =
      ({ balance := 100 - 10,
         game_state := some
           { mines_positions := [4, 9, 17], bet_amount := 10, mines_count := 3,
             revealed_positions := [], active := true, won := false,
             multiplier := 1 } }, .ok (100 - 10)) :=
  (start_valid_produces_fresh_round [4, 9, 17] 10 3 _ (by decide) (by decide)
    (by decide) (by decide) ⟨by decide, by decide, by decide⟩).1

/-- C7: revealing a position already in `revealed_positions` of an Active
round is rejected with `tile_already_revealed` and leaves both the stored
round and the balance unchanged. -/
theorem reveal_already_revealed_rejected (gs : GameState) (pos bal : ℤ)
    (ha : gs.active = true) (h0 : 0 ≤ pos) (h25 : pos < 25)
    (hrev : pos ∈ gs.revealed_positions) :
    reveal_tile pos { balance := bal, game_state := some gs } =
      ({ balance := bal, game_state := some gs }, .error .tile_already_revealed) := by
  have hpos : ¬(pos < 0 ∨ 25 ≤ pos) := by omega
  simp [reveal_tile, hpos, ha, hrev]

/-- C7 (witness): revealing tile 4 twice. -/
theorem reveal_already_revealed_rejected_witness :
    reveal_tile 4
        { balance := 30,
          game_state := some
            { mines_positions := [8], bet_amount := 10, mines_count := 1,
              revealed_positions := [4], active := true, won := false,
              multiplier := 1 } } =
      ({ balance := 30,
         game_state := some
           { mines_positions := [8], bet_amount := 10, mines_count := 1,
             revealed_positions := [4], active := true, won := false,
             multiplier := 1 } }, .error .tile_already_revealed) :=
  reveal_already_revealed_rejected _ 4 30 rfl (by decide) (by decide) (by decide)

/-- C6 (counterexample): with `mines_count = 0` and `bet_amount = 0` the bet
is nonpositive, yet `start` rejects with `invalid_mines_count`, not with
`invalid_bet_amount` — the mines-count check runs first, so "rejects with
InvalidBet exactly when betAmount ≤ 0" fails as a biconditional. -/
theorem start_rejection_order_cx :
    (start_mines_game [] 0 0 { balance := 100, game_state := none }).2 =
      .error .invalid_mines_count ∧
    (0 : ℤ) ≤ 0 ∧
    ApiError.invalid_mines_count ≠ ApiError.invalid_bet_amount := by
  refine ⟨by decide, by decide, by decide⟩

/-- C6 (amended): `start` rejects with `invalid_mines_count` exactly when
`mines_count` is outside `[1, 24]`; with `invalid_bet_amount` exactly when
`mines_count` is in range and `bet_amount ≤ 0`; with `insufficient_balance`
exactly when the earlier checks pass and the balance is below the bet; and on
every rejection neither the stored round nor the balance is mutated. -/
theorem start_rejection_taxonomy (sample : List ℤ) (bet mc : ℤ)
    (st : ServerState) :
    ((start_mines_game sample bet mc st).2 = .error .invalid_mines_count ↔
      (mc < 1 ∨ 24 < mc)) ∧
    ((start_mines_game sample bet mc st).2 = .error .invalid_bet_amount ↔
      (1 ≤ mc ∧ mc ≤ 24 ∧ bet ≤ 0)) ∧
    ((start_mines_game sample bet mc st).2 = .error .insufficient_balance ↔
      (1 ≤ mc ∧ mc ≤ 24 ∧ 0 < bet ∧ st.balance < bet)) ∧
    ∀ e : ApiError, (start_mines_game sample bet mc st).2 = .error e →
      (start_mines_game sample bet mc st).1 = st := by
  unfold start_mines_game
  split_ifs with h1 h2 h3
  · exact ⟨by simpa using h1, by simp; omega, by simp; omega, fun e _ => rfl⟩
  · exact ⟨by simp; omega, by simp; omega, by simp; omega, fun e _ => rfl⟩
  · exact ⟨by simp; omega, by simp; omega, by simp; omega, fun e _ => rfl⟩
  · exact ⟨by simp; omega, by simp; omega, by simp; omega, by simp⟩

/-- C6 (witness): the taxonomy applied at a concrete out-of-range
`mines_count`. -/
theorem start_rejection_taxonomy_witness :
    (start_mines_game [] 5 30 { balance := 100, game_state := none }).2 =
      .error .invalid_mines_count :=
  (start_rejection_taxonomy [] 5 30 { balance := 100, game_state := none }).1.mpr
    (by decide)

/-- C4: revealing a mine position of an Active round sets the round to the
lost terminal state (`active=False, won=False`), leaves the balance unchanged,
and afterwards every in-grid reveal and every cashout is rejected with
`no_active_game` without mutating anything. -/
theorem reveal_mine_loses_and_is_terminal (gs : GameState) (pos bal : ℤ)
    (ha : gs.active = true) (h0 : 0 ≤ pos) (h25 : pos < 25)
    (hnr : pos ∉ gs.revealed_positions) (hm : pos ∈ gs.mines_positions) :
    reveal_tile pos { balance := bal, game_state := some gs } =
      ({ balance := bal,
         game_state := some { gs with active := false, won := false } },
       .ok (.mine_hit gs.mines_positions)) ∧
    (∀ p2 bal2 : ℤ, 0 ≤ p2 → p2 < 25 →
      reveal_tile p2
          { balance := bal2,
            game_state := some { gs with active := false, won := false } } =
        ({ balance := bal2,
           game_state := some { gs with active := false, won := false } },
         .error .no_active_game)) ∧
    (∀ bal3 : ℤ,
      cashout { balance := bal3,
                game_state := some { gs with active := false, won := false } } =
        ({ balance := bal3,
           game_state := some { gs with active := false, won := false } },
         .error .no_active_game)) := by
  have hpos : ¬(pos < 0 ∨ 25 ≤ pos) := by omega
  refine ⟨?_, ?_, ?_⟩
  · simp [reveal_tile, hpos, ha, hnr, hm]
  · intro p2 bal2 hb0 hb25
    have hp2 : ¬(p2 < 0 ∨ 25 ≤ p2) := by omega
    simp [reveal_tile, hp2]
  · intro bal3
    simp [cashout]

/-- C4 (witness): hitting the mine at position 3 and then trying to reveal
tile 1 and to cash out. -/
theorem reveal_mine_loses_and_is_terminal_witness :
    reveal_tile 3
        { balance := 40,
          game_state := some
            { mines_positions := [3], bet_amount := 10, mines_count := 1,
              revealed_positions := [], active := true, won := false,
              multiplier := 1 } } =
      ({ balance := 40,
         game_state := some
           { mines_positions := [3], bet_amount := 10, mines_count := 1,
             revealed_positions := [], active := false, won := false,
             multiplier := 1 } }, .ok (.mine_hit [3])) ∧
    reveal_tile 1
        { balance := 40,
          game_state := some
            { mines_positions := [3], bet_amount := 10, mines_count := 1,
              revealed_positions := [], active := false, won := false,
              multiplier := 1 } } =
      ({ balance := 40,
         game_state := some
           { mines_positions := [3], bet_amount := 10, mines_count := 1,
             revealed_positions := [], active := false, won := false,
             multiplier := 1 } }, .error .no_active_game) ∧
    cashout
        { balance := 40,
          game_state := some
            { mines_positions := [3], bet_amount := 10, mines_count := 1,
              revealed_positions := [], active := false, won := false,
              multiplier := 1 } } =
      ({ balance := 40,
         game_state := some
           { mines_positions := [3], bet_amount := 10, mines_count := 1,
             revealed_positions := [], active := false, won := false,
             multiplier := 1 } }, .error .no_active_game) := by
  have h := reveal_mine_loses_and_is_terminal
    { mines_positions := [3], bet_amount := 10, mines_count := 1,
      revealed_positions := [], active := true, won := false, multiplier := 1 }
    3 40 rfl (by decide) (by decide) (by decide) (by decide)
  exact ⟨h.1, h.2.1 1 40 (by decide) (by decide), h.2.2 40⟩

/-- C9: a valid `start` immediately followed by `cashout` with zero reveals
pays back exactly the bet (multiplier 1), leaving the balance equal to its
value before the start and the round terminal. -/
theorem start_then_cashout_roundtrip (sample : List ℤ) (bet mc : ℤ)
    (st : ServerState) (h1 : 1 ≤ mc) (h2 : mc ≤ 24) (h3 : 0 < bet)
    (h4 : bet ≤ st.balance) :
    cashout (start_mines_game sample bet mc st).1 =
      ({ balance := st.balance,
         game_state := some
           { mines_positions := sample, bet_amount := bet, mines_count := mc,
             revealed_positions := [], active := false, won := true,
             multiplier := 1 } }, .ok (bet, st.balance)) := by
  rw [start_mines_game_success sample bet mc st h1 h2 h3 h4]
  simp only [cashout]
  norm_num [py_int_intCast]

/-- C9 (witness): bet 10 from balance 100, immediate cashout restores 100. -/
theorem start_then_cashout_roundtrip_witness :
    cashout (start_mines_game [7, 8] 10 2
        { balance := 100, game_state := none }).1 =
      ({ balance := 100,
         game_state := some
           { mines_positions := [7, 8], bet_amount := 10, mines_count := 2,
             revealed_positions := [], active := false, won := true,
             multiplier := 1 } }, .ok (10, 100)) :=
  start_then_cashout_roundtrip [7, 8] 10 2 { balance := 100, game_state := none }
    (by decide) (by decide) (by decide) (by decide)

/-- C10: on a round with 24 mines (one safe tile) and no reveals yet,
revealing the safe tile clears the grid: the round ends won, the multiplier
is exactly 25, and exactly `25 * bet_amount` is credited to the balance. -/
theorem reveal_single_safe_tile_wins (gs : GameState) (pos bal : ℤ)
    (ha : gs.active = true) (hmc : gs.mines_count = 24)
    (hrev : gs.revealed_positions = []) (h0 : 0 ≤ pos) (h25 : pos < 25)
    (hm : pos ∉ gs.mines_positions) :
    reveal_tile pos { balance := bal, game_state := some gs } =
      ({ balance := bal + 25 * gs.bet_amount,
         game_state := some
           { gs with revealed_positions := [pos], multiplier := 25,
                     active := false, won := true } },
       .ok (.game_won 25 (25 * gs.bet_amount) (bal + 25 * gs.bet_amount)
         gs.mines_positions)) := by
  have hpos : ¬(pos < 0 ∨ 25 ≤ pos) := by omega
  have hnr : pos ∉ gs.revealed_positions := by simp [hrev]
  have hpy : py_int ((gs.bet_amount : ℚ) * 25) = 25 * gs.bet_amount := by
    have h : ((gs.bet_amount : ℚ) * 25) = ((25 * gs.bet_amount : ℤ) : ℚ) := by
      push_cast
      ring
    rw [h, py_int_intCast]
  simp [reveal_tile, hpos, ha, hnr, hm, hrev, hmc]
  norm_num [hpy]

/-- C10 (witness): 24 mines on tiles 1–24, bet 10; revealing tile 0 pays
250. -/
theorem reveal_single_safe_tile_wins_witness :
    reveal_tile 0
        { balance := 5,
          game_state := some
            { mines_positions :=
                [1, 2, 3, 4, 5, 6, 7, 8, 9, 10, 11, 12, 13, 14, 15, 16, 17,
                 18, 19, 20, 21, 22, 23, 24],
              bet_amount := 10, mines_count := 24, revealed_positions := [],
              active := true, won := false, multiplier := 1 } } =
      ({ balance := 5 + 25 * 10,
         game_state := some
           { mines_positions :=
               [1, 2, 3, 4, 5, 6, 7, 8, 9, 10, 11, 12, 13, 14, 15, 16, 17,
                18, 19, 20, 21, 22, 23, 24],
             bet_amount := 10, mines_count := 24, revealed_positions := [0],
             active := false, won := true, multiplier := 25 } },
       .ok (.game_won 25 (25 * 10) (5 + 25 * 10)
         [1, 2, 3, 4, 5, 6, 7, 8, 9, 10, 11, 12, 13, 14, 15, 16, 17, 18, 19,
          20, 21, 22, 23, 24])) :=
  reveal_single_safe_tile_wins _ 0 5 rfl rfl rfl (by decide) (by decide)
    (by decide)

/-- Successful reveal: the stored round either keeps its revealed positions
and multiplier (mine hit) or gains exactly the revealed position with the
multiplier recomputed by the linear formula at the new count. -/
theorem reveal_tile_ok_round (gs : GameState) (pos bal : ℤ)
    (st2 : ServerState) (p : RevealPayload)
    (h : reveal_tile pos { balance := bal, game_state := some gs } =
      (st2, .ok p)) :
    ∀ gs2, st2.game_state = some gs2 →
      (gs2.revealed_positions = gs.revealed_positions ∧
        gs2.multiplier = gs.multiplier) ∨
      (gs2.revealed_positions = gs.revealed_positions ++ [pos] ∧
        gs2.multiplier =
          1 + (((gs.revealed_positions.length : ℚ) + 1) /
              ((25 - gs.mines_count : ℤ) : ℚ)) * (gs.mines_count : ℚ)) := by
  intro gs2 hgs2
  by_cases hpos : pos < 0 ∨ 25 ≤ pos
  · simp [reveal_tile, hpos] at h
  by_cases hact : gs.active = false
  · simp [reveal_tile, hpos, hact] at h
  have hact' : gs.active = true := by
    revert hact
    cases gs.active <;> simp
  by_cases hin : pos ∈ gs.revealed_positions
  · simp [reveal_tile, hpos, hact', hin] at h
  by_cases hmine : pos ∈ gs.mines_positions
  · simp [reveal_tile, hpos, hact', hin, hmine] at h
    obtain ⟨h1, -⟩ := h
    subst h1
    simp at hgs2
    subst hgs2
    left
    exact ⟨rfl, rfl⟩
  by_cases hclear : (gs.revealed_positions.length : ℤ) + 1 = 25 - gs.mines_count
  · simp [reveal_tile, hpos, hact', hin, hmine, hclear] at h
    obtain ⟨h1, -⟩ := h
    subst h1
    simp at hgs2
    subst hgs2
    right
    refine ⟨rfl, ?_⟩
    have hlen : (gs.revealed_positions.length : ℚ) = 24 - (gs.mines_count : ℚ) := by
      have hz : (gs.revealed_positions.length : ℤ) = 24 - gs.mines_count := by omega
      exact_mod_cast hz
    push_cast
    rw [hlen]
    ring
  · simp [reveal_tile, hpos, hact', hin, hmine, hclear] at h
    obtain ⟨h1, -⟩ := h
    subst h1
    simp at hgs2
    subst hgs2
    right
    refine ⟨rfl, ?_⟩
    push_cast
    ring

/-- C8: a freshly started round has multiplier 1 with no revealed positions;
for a round whose multiplier satisfies the linear formula at its current
revealed count (the invariant every reachable round has), any successful
reveal leaves the multiplier non-decreasing; and when the revealed count
reaches `25 - mines_count` the multiplier is exactly `1 + mines_count`. -/
theorem multiplier_monotone_curve :
    (∀ (sample : List ℤ) (bet mc : ℤ) (st st2 : ServerState) (r : ℤ),
        start_mines_game sample bet mc st = (st2, .ok r) →
        ∃ gs, st2.game_state = some gs ∧ gs.revealed_positions = [] ∧
          gs.multiplier = 1) ∧
    (∀ (gs : GameState) (pos bal : ℤ) (st2 : ServerState) (p : RevealPayload),
        1 ≤ gs.mines_count → gs.mines_count ≤ 24 →
        gs.multiplier =
          1 + ((gs.revealed_positions.length : ℚ) /
              ((25 - gs.mines_count : ℤ) : ℚ)) * (gs.mines_count : ℚ) →
        reveal_tile pos { balance := bal, game_state := some gs } =
          (st2, .ok p) →
        ∀ gs2, st2.game_state = some gs2 →
          gs.multiplier ≤ gs2.multiplier) ∧
    (∀ (gs : GameState) (pos bal : ℤ) (st2 : ServerState) (p : RevealPayload),
        1 ≤ gs.mines_count → gs.mines_count ≤ 24 →
        gs.multiplier =
          1 + ((gs.revealed_positions.length : ℚ) /
              ((25 - gs.mines_count : ℤ) : ℚ)) * (gs.mines_count : ℚ) →
        reveal_tile pos { balance := bal, game_state := some gs } =
          (st2, .ok p) →
        ∀ gs2, st2.game_state = some gs2 →
          (gs2.revealed_positions.length : ℤ) = 25 - gs.mines_count →
          gs2.multiplier = 1 + (gs.mines_count : ℚ)) := by
  refine ⟨?_, ?_, ?_⟩
  · intro sample bet mc st st2 r h
    by_cases h1 : mc < 1 ∨ 24 < mc
    · simp [start_mines_game, h1] at h
    by_cases h2 : bet ≤ 0
    · simp [start_mines_game, h1, h2] at h
    by_cases h3 : st.balance < bet
    · simp [start_mines_game, h1, h2, h3] at h
    · simp [start_mines_game, h1, h2, h3] at h
      obtain ⟨h4, -⟩ := h
      subst h4
      exact ⟨_, rfl, rfl, rfl⟩
  · intro gs pos bal st2 p hm1 hm2 hmult h gs2 hgs2
    have hs0 : (0 : ℚ) < ((25 - gs.mines_count : ℤ) : ℚ) := by
      exact_mod_cast (by omega : (0 : ℤ) < 25 - gs.mines_count)
    have hm0 : (0 : ℚ) ≤ (gs.mines_count : ℚ) := by
      exact_mod_cast (by omega : (0 : ℤ) ≤ gs.mines_count)
    rcases reveal_tile_ok_round gs pos bal st2 p h gs2 hgs2 with
      ⟨-, hmu⟩ | ⟨-, hmu⟩
    · rw [hmu]
    · rw [hmu, hmult]
      have hk : (gs.revealed_positions.length : ℚ) ≤
          (gs.revealed_positions.length : ℚ) + 1 := by linarith
      exact add_le_add_left
        (mul_le_mul_of_nonneg_right ((div_le_div_iff_of_pos_right hs0).mpr hk) hm0) 1
  · intro gs pos bal st2 p hm1 hm2 hmult h gs2 hgs2 hlen
    have hs0 : (0 : ℚ) < ((25 - gs.mines_count : ℤ) : ℚ) := by
      exact_mod_cast (by omega : (0 : ℤ) < 25 - gs.mines_count)
    rcases reveal_tile_ok_round gs pos bal st2 p h gs2 hgs2 with
      ⟨hrv, hmu⟩ | ⟨hrv, hmu⟩
    · rw [hmu, hmult]
      have hq : (gs.revealed_positions.length : ℚ) =
          ((25 - gs.mines_count : ℤ) : ℚ) := by
        rw [hrv] at hlen
        exact_mod_cast hlen
      rw [hq, div_self (ne_of_gt hs0), one_mul]
    · rw [hmu]
      have hq : (gs.revealed_positions.length : ℚ) + 1 =
          ((25 - gs.mines_count : ℤ) : ℚ) := by
        rw [hrv] at hlen
        simp at hlen
        exact_mod_cast hlen
      rw [hq, div_self (ne_of_gt hs0), one_mul]

/-- C8 (witness): one mine on tile 3, invariant-satisfying fresh round,
revealing tile 0 raises the multiplier from 1 to `1 + (1/24) * 1`. -/
theorem multiplier_monotone_curve_witness :
    (1 : ℚ) ≤ 1 + ((0 : ℚ) + 1) / ((24 : ℤ) : ℚ) * ((1 : ℤ) : ℚ) := by
  have h := multiplier_monotone_curve
  have hrev : reveal_tile 0
      { balance := 0,
        game_state := some
          { mines_positions := [3], bet_amount := 10, mines_count := 1,
            revealed_positions := [], active := true, won := false,
            multiplier := 1 } } =
      ({ balance := 0,
         game_state := some
           { mines_positions := [3], bet_amount := 10, mines_count := 1,
             revealed_positions := [0], active := true, won := false,
             multiplier := 1 + ((0 : ℚ) + 1) / ((24 : ℤ) : ℚ) * ((1 : ℤ) : ℚ) } },
       .ok (.safe_reveal [0] (1 + ((0 : ℚ) + 1) / ((24 : ℤ) : ℚ) * ((1 : ℤ) : ℚ))
         (py_int ((10 : ℚ) * (1 + ((0 : ℚ) + 1) / ((24 : ℤ) : ℚ) * ((1 : ℤ) : ℚ)))))) := by
    norm_num [reveal_tile]
  exact h.2.1
    { mines_positions := [3], bet_amount := 10, mines_count := 1,
      revealed_positions := [], active := true, won := false, multiplier := 1 }
    0 0 _ _ (by decide) (by decide) (by norm_num) hrev
    { mines_positions := [3], bet_amount := 10, mines_count := 1,
      revealed_positions := [0], active := true, won := false,
      multiplier := 1 + ((0 : ℚ) + 1) / ((24 : ℤ) : ℚ) * ((1 : ℤ) : ℚ) } rfl
